import Mathlib

/-!
Verification development for the background-visual components of the site:
the cellular automaton (`GameOfLife.ts`), the gravitational particle field
(`ParticleAttractor` in the same file) and the reactive node graph
(`NetworkGraph.ts`).  Randomness (`Math.random()`) is modelled by explicit
oracles returning the drawn values; JS `%` on integers is `Int.tmod`
(remainder with the dividend's sign); continuous quantities are real numbers.
-/

/-! ## Cellular automaton (`GameOfLife`) -/

/-- State of the cellular automaton: column and row counts and the cell grid,
indexed `grid[col][row]` with 0 = dead, 1 = alive. -/
structure GolState where
  cols : Nat
  rows : Nat
  grid : Nat → Nat → Nat

/-- Functional update of one grid cell, `grid[i][j] = v`. -/
def setCell (g : Nat → Nat → Nat) (i j v : Nat) : Nat → Nat → Nat :=
  fun a b => if a = i ∧ b = j then v else g a b

/-- All in-range index pairs (i, j) with i < cols and j < rows, in the
iteration order of the source's nested `for` loops. -/
def indexPairs (cols rows : Nat) : List (Nat × Nat) :=
  (List.range cols).flatMap (fun i => (List.range rows).map (fun j => (i, j)))

/-- The eight neighbor offsets (x, y) with x, y ∈ \x7b-1, 0, 1\x7d and (0, 0)
excluded, in the order of the source's neighbor-count loops. -/
def neighborOffsets : List (Int × Int) :=
  [(-1, -1), (-1, 0), (-1, 1), (0, -1), (0, 1), (1, -1), (1, 0), (1, 1)]

/-- Neighbor sum of `GameOfLife.update`: for each offset the index is wrapped
as `(i + x + cols) % cols` (JS `%`, i.e. `Int.tmod`) and the stored cell value
is added. -/
def neighborCount (s : GolState) (i j : Nat) : Nat :=
  (neighborOffsets.map (fun q =>
    s.grid ((((i : Int) + q.1 + s.cols).tmod s.cols).toNat)
           ((((j : Int) + q.2 + s.rows).tmod s.rows).toNat))).sum

/-- Value `GameOfLife.update` assigns to `next[i][j]`: Conway's rules, read
entirely from the previous grid `s.grid`. -/
def conwayNext (s : GolState) (i j : Nat) : Nat :=
  let state := s.grid i j
  let n := neighborCount s i j
  if state = 0 ∧ n = 3 then 1
  else if state = 1 ∧ (n < 2 ∨ n > 3) then 0
  else state

/-- `GameOfLife.update`: `next` starts as a copy of the grid, every in-range
cell is assigned its Conway value computed from the previous grid, and `next`
then replaces the grid. -/
def golUpdate (s : GolState) : GolState :=
  let next := (indexPairs s.cols s.rows).foldl
    (fun nx p => setCell nx p.1 p.2 (conwayNext s p.1 p.2)) s.grid
  { s with grid := next }

/-- Number of live (= 1) cells among the 8 toroidally wrapped neighbors, with
exact modulo wraparound into [0, cols) × [0, rows), as the spec words the
neighbor count. -/
def specLiveNeighbors (s : GolState) (i j : Nat) : Nat :=
  (neighborOffsets.map (fun q =>
    if s.grid ((((i : Int) + q.1) % (s.cols : Int)).toNat)
              ((((j : Int) + q.2) % (s.rows : Int)).toNat) = 1
    then 1 else 0)).sum

/-- Post-step cell value as the spec words the standard Conway rule: a dead
cell with exactly 3 live neighbors becomes alive, a live cell with fewer than
2 or more than 3 live neighbors becomes dead, every other cell keeps its
state. -/
def specConwayCell (s : GolState) (i j : Nat) : Nat :=
  if s.grid i j = 0 ∧ specLiveNeighbors s i j = 3 then 1
  else if s.grid i j = 1 ∧ (specLiveNeighbors s i j < 2 ∨ specLiveNeighbors s i j > 3) then 0
  else s.grid i j

/-- `GameOfLife.seed`: every in-range cell is assigned 1 when its random draw
is below 0.15 and 0 otherwise; `o i j` stands for the `Math.random()` call
made for cell (i, j). -/
def golSeed (cols rows : Nat) (o : Nat → Nat → ℚ) (g : Nat → Nat → Nat) :
    Nat → Nat → Nat :=
  (indexPairs cols rows).foldl
    (fun g' p => setCell g' p.1 p.2 (if o p.1 p.2 < 0.15 then 1 else 0)) g

/-- `GameOfLife.resize`, given the resulting surface width and height:
recompute `cols = ceil(width / 8)` and `rows = ceil(height / 8)` (cellSize is
fixed at 8), re-create a zero-filled grid of that size and reseed it; the
prior state `s` is discarded. -/
def golResize (_s : GolState) (w h : Nat) (o : Nat → Nat → ℚ) : GolState :=
  let cols := Nat.ceil ((w : ℚ) / 8)
  let rows := Nat.ceil ((h : ℚ) / 8)
  { cols := cols, rows := rows, grid := golSeed cols rows o (fun _ _ => 0) }

/-- The nine offsets (i, j) of the 3×3 pointer cluster of
`GameOfLife.handleMouseMove`, in source loop order. -/
def nineOffsets : List (Int × Int) :=
  [(-1, -1), (-1, 0), (-1, 1), (0, -1), (0, 0), (0, 1), (1, -1), (1, 0), (1, 1)]

/-- One candidate write of `GameOfLife.handleMouseMove`: wrap the indices with
JS `%` (`Int.tmod`), keep the write only if the indexed column and cell exist
(`grid[c] && grid[c][r] !== undefined`), and set the cell alive when the
random draw exceeds 0.3. -/
def paintCell (cols rows : Nat) (col row : Int) (g : Nat → Nat → Nat)
    (rnd : ℚ) (q : Int × Int) : Nat → Nat → Nat :=
  let c := (col + q.1 + cols).tmod cols
  let r := (row + q.2 + rows).tmod rows
  if 0 ≤ c ∧ c < cols ∧ 0 ≤ r ∧ r < rows then
    (if rnd > 0.3 then setCell g c.toNat r.toNat 1 else g)
  else g

/-- `GameOfLife.handleMouseMove` at surface-relative pointer position (x, y):
the covered cell is (⌊x / 8⌋, ⌊y / 8⌋), then the nine candidate writes run in
loop order; `o k` stands for the `Math.random()` draw of the k-th offset. -/
def handleMouseMove (s : GolState) (x y : ℚ) (o : Nat → ℚ) : GolState :=
  let col : Int := ⌊x / 8⌋
  let row : Int := ⌊y / 8⌋
  let painted := nineOffsets.enum.foldl
    (fun g kq => paintCell s.cols s.rows col row g (o kq.1) kq.2) s.grid
  { s with grid := painted }

/-- One cluster write as the spec words it: the indices wrap by exact modulo
into [0, cols) × [0, rows) and the cell is set alive when the draw exceeds
0.3 (probability 0.7), unconditionally for each of the nine cells. -/
def specPaintCell (cols rows : Nat) (col row : Int) (g : Nat → Nat → Nat)
    (rnd : ℚ) (q : Int × Int) : Nat → Nat → Nat :=
  let c := (col + q.1) % (cols : Int)
  let r := (row + q.2) % (rows : Int)
  if rnd > 0.3 then setCell g c.toNat r.toNat 1 else g

/-- Pointer-move behavior as the claim words it: every one of the nine
toroidally wrapped cells of the 3×3 neighborhood is independently painted. -/
def specHandleMouseMove (s : GolState) (x y : ℚ) (o : Nat → ℚ) : GolState :=
  let col : Int := ⌊x / 8⌋
  let row : Int := ⌊y / 8⌋
  let painted := nineOffsets.enum.foldl
    (fun g kq => specPaintCell s.cols s.rows col row g (o kq.1) kq.2) s.grid
  { s with grid := painted }


/-! ## Gravitational particle field (`ParticleAttractor`) -/

/-- A particle of the gravitational field: position, velocity and radius. -/
structure Particle where
  x : ℝ
  y : ℝ
  vx : ℝ
  vy : ℝ
  size : ℝ

/-- JS `Math.atan2(y, x)`. -/
noncomputable def atan2 (y x : ℝ) : ℝ :=
  if 0 < x then Real.arctan (y / x)
  else if x < 0 then
    (if 0 ≤ y then Real.arctan (y / x) + Real.pi else Real.arctan (y / x) - Real.pi)
  else
    (if 0 < y then Real.pi / 2 else if y < 0 then -(Real.pi / 2) else 0)

/-- The particle's distance to the surface center, as computed at the top of
`ParticleAttractor.update` from the pre-move position. -/
noncomputable def distCenter (w h : ℝ) (p : Particle) : ℝ :=
  Real.sqrt ((w / 2 - p.x) * (w / 2 - p.x) + (h / 2 - p.y) * (h / 2 - p.y))

/-- `Particle.reset`: ring position and tangent velocity built from the three
`Math.random()` draws u1, u2, u3 (angle, ring radius, speed). -/
noncomputable def resetParticle (w h u1 u2 u3 : ℝ) (p : Particle) : Particle :=
  let angle := u1 * Real.pi * 2
  let r := min w h / 2 + u2 * 50
  let speed := u3 * 2 + 1
  { x := w / 2 + Real.cos angle * r
    y := h / 2 + Real.sin angle * r
    vx := -Real.sin angle * speed
    vy := Real.cos angle * speed
    size := p.size }

/-- Physics portion of `ParticleAttractor.update` for one particle: center
attraction, pointer repulsion, damping and the Euler position update, in
source order. -/
noncomputable def moveParticle (w h mx my : ℝ) (p : Particle) : Particle :=
  let dx := w / 2 - p.x
  let dy := h / 2 - p.y
  let dist := Real.sqrt (dx * dx + dy * dy)
  let force := 1000 / (dist + 50)
  let angle := atan2 dy dx
  let vx1 := p.vx + Real.cos angle * force * 0.5
  let vy1 := p.vy + Real.sin angle * force * 0.5
  let mdx := mx - p.x
  let mdy := my - p.y
  let mDist := Real.sqrt (mdx * mdx + mdy * mdy)
  let vx2 := if mDist < 200 then vx1 - mdx / mDist * ((200 - mDist) * 0.05) else vx1
  let vy2 := if mDist < 200 then vy1 - mdy / mDist * ((200 - mDist) * 0.05) else vy1
  let vx3 := vx2 * 0.95
  let vy3 := vy2 * 0.95
  { x := p.x + vx3, y := p.y + vy3, vx := vx3, vy := vy3, size := p.size }

/-- The "lost in space" test of `ParticleAttractor.update`: more than 200
units beyond a surface edge. -/
def OutOfRange (w h : ℝ) (p : Particle) : Prop :=
  p.x < -200 ∨ p.x > w + 200 ∨ p.y < -200 ∨ p.y > h + 200

noncomputable instance (w h : ℝ) (p : Particle) : Decidable (OutOfRange w h p) := by
  unfold OutOfRange
  infer_instance

/-- One full per-particle step of `ParticleAttractor.update`: move, then the
event-horizon reset (pre-move distance to center below 10), then the
lost-in-space reset on the resulting position; `o k` stands for the k-th
`Math.random()` draw consumed by the resets of this step. -/
noncomputable def updateParticle (w h mx my : ℝ) (o : Nat → ℝ) (p : Particle) : Particle :=
  let p1 := moveParticle w h mx my p
  let pk : Particle × Nat :=
    if distCenter w h p < 10 then (resetParticle w h (o 0) (o 1) (o 2) p1, 3)
    else (p1, 0)
  if OutOfRange w h pk.1 then
    resetParticle w h (o pk.2) (o (pk.2 + 1)) (o (pk.2 + 2)) pk.1
  else pk.1

/-- Iterated per-frame updates of one particle; `os n` is the oracle of the
random draws of step n. -/
noncomputable def iterParticle (w h mx my : ℝ) (os : Nat → Nat → ℝ) (p : Particle) :
    Nat → Particle
  | 0 => p
  | n + 1 => updateParticle w h mx my (os n) (iterParticle w h mx my os p n)

/-- Spec step 1: center attraction of magnitude `1000 / (distanceToCenter + 50)`,
added at `force * 0.5` to each velocity component along the angle to center. -/
noncomputable def gravityStep (w h : ℝ) (p : Particle) : Particle :=
  let dx := w / 2 - p.x
  let dy := h / 2 - p.y
  let dist := Real.sqrt (dx * dx + dy * dy)
  let force := 1000 / (dist + 50)
  let angle := atan2 dy dx
  { p with vx := p.vx + Real.cos angle * force * 0.5
           vy := p.vy + Real.sin angle * force * 0.5 }

/-- Spec step 2: pointer repulsion, subtracting the unit vector toward the
pointer times `(200 - distance) * 0.05` when the distance is below 200. -/
noncomputable def repelStep (mx my : ℝ) (p : Particle) : Particle :=
  let mdx := mx - p.x
  let mdy := my - p.y
  let mDist := Real.sqrt (mdx * mdx + mdy * mdy)
  if mDist < 200 then
    { p with vx := p.vx - mdx / mDist * ((200 - mDist) * 0.05)
             vy := p.vy - mdy / mDist * ((200 - mDist) * 0.05) }
  else p

/-- Spec step 3: damping, multiplying both velocity components by 0.95. -/
noncomputable def dampStep (p : Particle) : Particle :=
  { p with vx := p.vx * 0.95, vy := p.vy * 0.95 }

/-- Spec step 4: one semi-implicit Euler step, adding velocity to position. -/
noncomputable def eulerStep (p : Particle) : Particle :=
  { p with x := p.x + p.vx, y := p.y + p.vy }

/-! ## Reactive node graph (`NetworkGraph`) -/

/-- A node of the graph: position, velocity and radius. -/
structure Node where
  x : ℝ
  y : ℝ
  vx : ℝ
  vy : ℝ
  size : ℝ

instance : Inhabited Node := ⟨⟨0, 0, 0, 0, 0⟩⟩

/-- A drawing command issued by `NetworkGraph.draw`: the initial clear, a
stroked line with the alpha used for its color, or a filled node circle. -/
inductive DrawCmd where
  | clear : DrawCmd
  | line (x1 y1 x2 y2 alpha : ℝ) : DrawCmd
  | circle (x y r : ℝ) : DrawCmd

/-- Whether a drawing command is a line. -/
def DrawCmd.isLine : DrawCmd → Prop
  | .line _ _ _ _ _ => True
  | _ => False

/-- Whether a drawing command is a circle. -/
def DrawCmd.isCircle : DrawCmd → Prop
  | .circle _ _ _ => True
  | _ => False

/-- The node at index i of the population (the population is only read at
indices below its length). -/
def nodeAt (nodes : List Node) (i : Nat) : Node := nodes.getD i default

/-- The peer-connection attempt of `NetworkGraph.draw` for an ordered pair:
a line with alpha `(1 - dist / connectionDistance) * 0.5` when the distance
is strictly below the threshold, nothing otherwise. -/
noncomputable def pairLine (t : ℝ) (p1 p2 : Node) : Option DrawCmd :=
  let dx := p1.x - p2.x
  let dy := p1.y - p2.y
  let dist := Real.sqrt (dx * dx + dy * dy)
  if dist < t then some (.line p1.x p1.y p2.x p2.y ((1 - dist / t) * 0.5))
  else none

/-- The pointer-connection attempt of `NetworkGraph.draw` for one node:
a line to the pointer with alpha `(1 - dist / (threshold + 50)) * 0.8` when
the distance is strictly below threshold + 50, nothing otherwise. -/
noncomputable def mouseLine (t mx my : ℝ) (p1 : Node) : Option DrawCmd :=
  let mdx := mx - p1.x
  let mdy := my - p1.y
  let mDist := Real.sqrt (mdx * mdx + mdy * mdy)
  if mDist < t + 50 then some (.line p1.x p1.y mx my ((1 - mDist / (t + 50)) * 0.8))
  else none

/-- The commands `NetworkGraph.draw` issues, in order: clear the surface; for
every index i, the lines to the later peers j > i and then the possible line
to the pointer; finally every node's circle. -/
noncomputable def drawCmds (t mx my : ℝ) (nodes : List Node) : List DrawCmd :=
  DrawCmd.clear ::
    (((List.range nodes.length).flatMap (fun i =>
        ((nodes.drop (i + 1)).filterMap (fun p2 => pairLine t (nodeAt nodes i) p2))
          ++ (mouseLine t mx my (nodeAt nodes i)).toList))
      ++ nodes.map (fun p => DrawCmd.circle p.x p.y p.size))

/-- Peer-line alpha as the spec words it. -/
noncomputable def specPairAlpha (t d : ℝ) : ℝ := (1 - d / t) * 0.5

/-- Euclidean distance between two nodes, as the spec words it. -/
noncomputable def euclid (p q : Node) : ℝ :=
  Real.sqrt ((p.x - q.x) ^ 2 + (p.y - q.y) ^ 2)

/-- Euclidean distance from a node to the pointer. -/
noncomputable def euclidToMouse (mx my : ℝ) (p : Node) : ℝ :=
  Real.sqrt ((mx - p.x) ^ 2 + (my - p.y) ^ 2)

/-! ## Lifecycle and construction (common to the three Visuals) -/

/-- The host's animation-frame scheduler: pending callback handles and the
next handle to hand out (handles are positive, as `requestAnimationFrame`
returns non-zero ids). -/
structure SchedState where
  pending : List Nat
  nextId : Nat

/-- The lifecycle fields a Visual owns: the nullable animation-frame handle
and the two registered listeners. -/
structure VisLifecycle where
  animationId : Option Nat
  resizeListenerOn : Bool
  mouseListenerOn : Bool

/-- A Visual's lifecycle state together with the host scheduler. -/
structure VisWorld where
  sched : SchedState
  vis : VisLifecycle

/-- `requestAnimationFrame`: append a fresh positive handle and return it. -/
def requestFrame (s : SchedState) : SchedState × Nat :=
  ({ pending := s.pending ++ [s.nextId], nextId := s.nextId + 1 }, s.nextId)

/-- `cancelAnimationFrame`: drop the handle from the pending queue. -/
def cancelFrame (s : SchedState) (id : Nat) : SchedState :=
  { s with pending := s.pending.erase id }

/-- JS truthiness of the nullable numeric handle (`null` and 0 are falsy). -/
def jsTruthy (a : Option Nat) : Bool := a.getD 0 != 0

/-- The tail of `loop`: after update/draw, schedule the next frame and store
its handle. -/
def loopOnce (w : VisWorld) : VisWorld :=
  let sid := requestFrame w.sched
  { sched := sid.1, vis := { w.vis with animationId := some sid.2 } }

/-- `start`: begin the loop only if no handle is held (`if (!this.animationId)`). -/
def startVis (w : VisWorld) : VisWorld :=
  if jsTruthy w.vis.animationId then w else loopOnce w

/-- `stop`: if a handle is held, cancel it and null the handle. -/
def stopVis (w : VisWorld) : VisWorld :=
  if jsTruthy w.vis.animationId then
    { sched := cancelFrame w.sched (w.vis.animationId.getD 0),
      vis := { w.vis with animationId := none } }
  else w

/-- `init`/`attach`: start the loop and register the resize and mousemove
listeners (grid/population setup is modelled elsewhere). -/
def attachVis (w : VisWorld) : VisWorld :=
  let w1 := startVis w
  { w1 with vis := { w1.vis with resizeListenerOn := true, mouseListenerOn := true } }

/-- `destroy`/`detach`: stop the loop and remove both listeners. -/
def destroyVis (w : VisWorld) : VisWorld :=
  let w1 := stopVis w
  { w1 with vis := { w1.vis with resizeListenerOn := false, mouseListenerOn := false } }

/-- The host fires the next pending frame: dequeue it and run the loop body,
which re-schedules. -/
def fireFrame (w : VisWorld) : VisWorld :=
  match w.sched.pending with
  | [] => w
  | _ :: rest => loopOnce { w with sched := { w.sched with pending := rest } }

/-- Single-visual loop invariant: the held handle is exactly the pending
callback (and no callback is pending when no handle is held), handles are
positive. -/
def LoopInv (w : VisWorld) : Prop :=
  (match w.vis.animationId with
    | none => w.sched.pending = []
    | some id => w.sched.pending = [id] ∧ 1 ≤ id) ∧
  1 ≤ w.sched.nextId

/-- Opaque token standing for an obtained 2D drawing context. -/
structure Ctx2D where
  tok : Nat

/-- The constructor-held state common to the three Visuals. -/
structure VisualInit where
  ctx : Ctx2D
  color : String

/-- The shared constructor pattern of the three Visuals: `getContext` yields
`none` when a 2D context cannot be obtained, in which case construction
throws; otherwise the obtained context is stored. -/
def mkVisual (ctxOpt : Option Ctx2D) (color : String) : Except String VisualInit :=
  match ctxOpt with
  | none => Except.error "Could not get canvas context"
  | some c => Except.ok { ctx := c, color := color }

/-! ## Lemmas about the grid folds -/

theorem foldl_setCell_eq (f : Nat × Nat → Nat) (l : List (Nat × Nat))
    (g : Nat → Nat → Nat) (a b : Nat) :
    (l.foldl (fun nx p => setCell nx p.1 p.2 (f p)) g) a b
      = if (a, b) ∈ l then f (a, b) else g a b := by
  induction l generalizing g with
  | nil => simp
  | cons hd tl ih =>
    rw [List.foldl_cons, ih]
    by_cases htl : (a, b) ∈ tl
    · simp [htl]
    · by_cases hh : (a, b) = hd
      · subst hh
        simp [htl, setCell]
      · have hne : ¬(a = hd.1 ∧ b = hd.2) := by
          intro hcontra
          exact hh (Prod.ext_iff.mpr ⟨hcontra.1, hcontra.2⟩)
        simp [htl, hh, setCell, hne]

theorem mem_indexPairs (cols rows i j : Nat) :
    (i, j) ∈ indexPairs cols rows ↔ i < cols ∧ j < rows := by
  simp [indexPairs]

theorem tmod_wrap (n : Nat) (hn : 0 < n) (a : Int) (ha : 0 ≤ a + n) :
    (a + n).tmod n = a % (n : Int) := by
  rw [Int.tmod_eq_emod ha (by omega)]
  simp [Int.add_mul_emod_self_left]

theorem gridWrapEq (s : GolState) (hc : 0 < s.cols) (hr : 0 < s.rows)
    (hbin : ∀ a b, a < s.cols → b < s.rows → s.grid a b = 0 ∨ s.grid a b = 1)
    (i j : Nat) (x y : Int) (hx : -1 ≤ x) (hy : -1 ≤ y) :
    s.grid ((((i : Int) + x + s.cols).tmod s.cols).toNat)
           ((((j : Int) + y + s.rows).tmod s.rows).toNat)
      = if s.grid ((((i : Int) + x) % (s.cols : Int)).toNat)
                  ((((j : Int) + y) % (s.rows : Int)).toNat) = 1 then 1 else 0 := by
  rw [tmod_wrap s.cols hc ((i : Int) + x) (by omega),
      tmod_wrap s.rows hr ((j : Int) + y) (by omega)]
  have hc1 : 0 ≤ ((i : Int) + x) % (s.cols : Int) := Int.emod_nonneg _ (by omega)
  have hc2 : ((i : Int) + x) % (s.cols : Int) < s.cols := Int.emod_lt_of_pos _ (by omega)
  have hr1 : 0 ≤ ((j : Int) + y) % (s.rows : Int) := Int.emod_nonneg _ (by omega)
  have hr2 : ((j : Int) + y) % (s.rows : Int) < s.rows := Int.emod_lt_of_pos _ (by omega)
  rcases hbin ((((i : Int) + x) % (s.cols : Int)).toNat)
      ((((j : Int) + y) % (s.rows : Int)).toNat) (by omega) (by omega) with h | h <;>
    simp [h]

theorem neighborCount_eq_spec (s : GolState) (hc : 0 < s.cols) (hr : 0 < s.rows)
    (hbin : ∀ a b, a < s.cols → b < s.rows → s.grid a b = 0 ∨ s.grid a b = 1)
    (i j : Nat) :
    neighborCount s i j = specLiveNeighbors s i j := by
  unfold neighborCount specLiveNeighbors
  congr 1
  refine List.map_congr_left ?_
  intro q hq
  have hx : (-1 : Int) ≤ q.1 ∧ (-1 : Int) ≤ q.2 := by
    fin_cases hq <;> exact ⟨by decide, by decide⟩
  exact gridWrapEq s hc hr hbin i j q.1 q.2 hx.1 hx.2

/-! ## C1: the automaton step -/

/-- C1: one `update` of the cellular automaton leaves the grid dimensions
unchanged and sets every in-range cell from the previous grid by the standard
Conway rule over the count of its 8 toroidally wrapped (modulo cols/rows)
neighbors: a dead cell with exactly 3 live neighbors becomes alive, a live
cell with fewer than 2 or more than 3 live neighbors becomes dead, every
other cell keeps its state; all reads are from the pre-update grid. -/
theorem gol_update_conway (s : GolState) (hc : 0 < s.cols) (hr : 0 < s.rows)
    (hbin : ∀ a b, a < s.cols → b < s.rows → s.grid a b = 0 ∨ s.grid a b = 1)
    (i j : Nat) (hi : i < s.cols) (hj : j < s.rows) :
    (golUpdate s).cols = s.cols ∧ (golUpdate s).rows = s.rows ∧
    (golUpdate s).grid i j = specConwayCell s i j := by
  refine ⟨rfl, rfl, ?_⟩
  show ((indexPairs s.cols s.rows).foldl
    (fun nx p => setCell nx p.1 p.2 (conwayNext s p.1 p.2)) s.grid) i j = _
  rw [foldl_setCell_eq (fun p => conwayNext s p.1 p.2)]
  rw [if_pos ((mem_indexPairs s.cols s.rows i j).mpr ⟨hi, hj⟩)]
  unfold conwayNext specConwayCell
  rw [neighborCount_eq_spec s hc hr hbin i j]

/-- Witness for C1 at a concrete 3×3 state: the center cell of a full middle
column dies of overcrowding exactly as the spec rule demands. -/
theorem gol_update_conway_witness :
    (golUpdate ⟨3, 3, fun a _ => if a = 1 then 1 else 0⟩).grid 1 1 =
      specConwayCell ⟨3, 3, fun a _ => if a = 1 then 1 else 0⟩ 1 1 :=
  (gol_update_conway ⟨3, 3, fun a _ => if a = 1 then 1 else 0⟩ (by norm_num) (by norm_num)
    (by
      intro a b _ _
      by_cases h : a = 1 <;> simp [h])
    1 1 (by norm_num) (by norm_num)).2.2

/-! ## C6: resize -/

/-- C6: every resize of the automaton, given the resulting surface width and
height, yields exactly ceil(width/8) columns and ceil(height/8) rows
(cellSize fixed at 8), resamples every in-range cell independently to alive
exactly when its draw is below 0.15 (cells outside the new grid are 0), and
discards all prior cell state: the result does not depend on the previous
state. -/
theorem gol_resize_reseeds (s s' : GolState) (w h : Nat) (o : Nat → Nat → ℚ)
    (i j : Nat) :
    (golResize s w h o).cols = Nat.ceil ((w : ℚ) / 8) ∧
    (golResize s w h o).rows = Nat.ceil ((h : ℚ) / 8) ∧
    ((golResize s w h o).grid i j =
      if i < Nat.ceil ((w : ℚ) / 8) ∧ j < Nat.ceil ((h : ℚ) / 8) ∧ o i j < 0.15
      then 1 else 0) ∧
    golResize s w h o = golResize s' w h o := by
  refine ⟨rfl, rfl, ?_, rfl⟩
  show golSeed (Nat.ceil ((w : ℚ) / 8)) (Nat.ceil ((h : ℚ) / 8)) o (fun _ _ => 0) i j = _
  unfold golSeed
  rw [foldl_setCell_eq (fun p => if o p.1 p.2 < 0.15 then 1 else 0)]
  simp only [mem_indexPairs]
  by_cases h1 : i < Nat.ceil ((w : ℚ) / 8) ∧ j < Nat.ceil ((h : ℚ) / 8)
  · by_cases h2 : o i j < 0.15 <;> simp [h1, h1.1, h1.2, h2]
  · have h3 : ¬(i < Nat.ceil ((w : ℚ) / 8) ∧ j < Nat.ceil ((h : ℚ) / 8) ∧ o i j < 0.15) := by
      intro hcontra
      exact h1 ⟨hcontra.1, hcontra.2.1⟩
    simp [h1, h3]

/-! ## C7 and C10: the pointer cluster -/

theorem paintCell_eq_spec (cols rows : Nat) (hc : 0 < cols) (hr : 0 < rows)
    (col row : Int) (hcol : 1 - (cols : Int) ≤ col) (hrow : 1 - (rows : Int) ≤ row)
    (g : Nat → Nat → Nat) (rnd : ℚ) (q : Int × Int)
    (hq1 : -1 ≤ q.1) (hq2 : -1 ≤ q.2) :
    paintCell cols rows col row g rnd q = specPaintCell cols rows col row g rnd q := by
  unfold paintCell specPaintCell
  rw [show col + q.1 + (cols : Int) = (col + q.1) + cols by ring,
      show row + q.2 + (rows : Int) = (row + q.2) + rows by ring,
      tmod_wrap cols hc (col + q.1) (by omega),
      tmod_wrap rows hr (row + q.2) (by omega)]
  have g1 : 0 ≤ (col + q.1) % (cols : Int) := Int.emod_nonneg _ (by omega)
  have g2 : (col + q.1) % (cols : Int) < cols := Int.emod_lt_of_pos _ (by omega)
  have g3 : 0 ≤ (row + q.2) % (rows : Int) := Int.emod_nonneg _ (by omega)
  have g4 : (row + q.2) % (rows : Int) < rows := Int.emod_lt_of_pos _ (by omega)
  rw [if_pos ⟨g1, g2, g3, g4⟩]

/-- C7 (amended): for every pointer position whose covered cell
(col, row) = (⌊x/8⌋, ⌊y/8⌋) satisfies col ≥ 1 − cols and row ≥ 1 − rows —
in particular every position with nonnegative surface-relative
coordinates — the pointer-move handler is exactly the claimed behavior:
each of the 9 cells of the 3×3 neighborhood around the covered cell, with
indices wrapped by exact modulo into [0, cols) × [0, rows), is independently
set alive when its draw exceeds 0.3 and left unchanged otherwise, and no
other cell changes.  (For positions further left or above, a candidate
write whose JS `%` wrap is negative is skipped instead; see the
counterexample.) -/
theorem gol_mousemove_cluster (s : GolState) (x y : ℚ) (o : Nat → ℚ)
    (hc : 0 < s.cols) (hr : 0 < s.rows)
    (hx : 1 - (s.cols : Int) ≤ ⌊x / 8⌋) (hy : 1 - (s.rows : Int) ≤ ⌊y / 8⌋) :
    handleMouseMove s x y o = specHandleMouseMove s x y o := by
  have hfold : (nineOffsets.enum.foldl
      (fun g kq => paintCell s.cols s.rows ⌊x / 8⌋ ⌊y / 8⌋ g (o kq.1) kq.2) s.grid)
      = (nineOffsets.enum.foldl
      (fun g kq => specPaintCell s.cols s.rows ⌊x / 8⌋ ⌊y / 8⌋ g (o kq.1) kq.2) s.grid) := by
    refine List.foldl_ext _ _ _ ?_
    intro g kq hkq
    refine paintCell_eq_spec s.cols s.rows hc hr _ _ hx hy g (o kq.1) kq.2 ?_ ?_ <;>
      fin_cases hkq <;> decide
  unfold handleMouseMove specHandleMouseMove
  dsimp only
  rw [hfold]

/-- Witness for C7's amended statement at a concrete state and an on-surface
pointer position. -/
theorem gol_mousemove_cluster_witness :
    handleMouseMove ⟨4, 4, fun _ _ => 0⟩ 9 9 (fun _ => 1) =
      specHandleMouseMove ⟨4, 4, fun _ _ => 0⟩ 9 9 (fun _ => 1) :=
  gol_mousemove_cluster ⟨4, 4, fun _ _ => 0⟩ 9 9 (fun _ => 1)
    (by norm_num) (by norm_num) (by norm_num) (by norm_num)

/-- Counterexample to C7 as stated: with a 4×4 grid and the pointer at
surface-relative (−128, −128), the covered cell is (−16, −16); the JS wrap
`(col + i + cols) % cols` is negative for most offsets, so the guarded write
is skipped and cell (3, 3) — which exact modulo wraparound would paint with
a draw of 1 > 0.3 — stays dead, while the claimed behavior paints it. -/
theorem gol_mousemove_wrap_counterexample :
    (handleMouseMove ⟨4, 4, fun _ _ => 0⟩ (-128) (-128) (fun _ => 1)).grid 3 3 = 0 ∧
    (specHandleMouseMove ⟨4, 4, fun _ _ => 0⟩ (-128) (-128) (fun _ => 1)).grid 3 3 = 1 := by
  have h1 : ((1 : ℚ) > 0.3) := by norm_num
  have hf : (⌊((-128 : ℚ)) / 8⌋ : Int) = -16 := by norm_num
  constructor
  · simp only [handleMouseMove, hf, nineOffsets, List.enum, List.enumFrom,
      List.foldl_cons, List.foldl_nil, paintCell, h1, if_true]
    decide
  · simp only [specHandleMouseMove, hf, nineOffsets, List.enum, List.enumFrom,
      List.foldl_cons, List.foldl_nil, specPaintCell, h1, if_true]
    decide

theorem paintCell_frame (cols rows : Nat) (col row : Int) (g : Nat → Nat → Nat)
    (rnd : ℚ) (q : Int × Int) (a b : Nat) :
    paintCell cols rows col row g rnd q a b = g a b ∨
      (a < cols ∧ b < rows ∧ paintCell cols rows col row g rnd q a b = 1) := by
  unfold paintCell
  split_ifs with h1 h2
  · by_cases h3 : a = ((col + q.1 + (cols : Int)).tmod cols).toNat ∧
        b = ((row + q.2 + (rows : Int)).tmod rows).toNat
    · obtain ⟨hc0, hc1, hr0, hr1⟩ := h1
      right
      refine ⟨?_, ?_, ?_⟩
      · omega
      · omega
      · simp [setCell, h3]
    · left
      simp [setCell, h3]
  · left; rfl
  · left; rfl

/-- C10: the pointer-move handler is total and safe for every pointer
coordinate, including far-negative ones where the JS wrap is negative: it
never changes the grid dimensions, and every cell it changes is in range and
is set to 1 (every candidate write is either a guarded in-range write of 1 or
a skip). -/
theorem gol_mousemove_safe (s : GolState) (x y : ℚ) (o : Nat → ℚ) (a b : Nat) :
    (handleMouseMove s x y o).cols = s.cols ∧
    (handleMouseMove s x y o).rows = s.rows ∧
    ((handleMouseMove s x y o).grid a b = s.grid a b ∨
      (a < s.cols ∧ b < s.rows ∧ (handleMouseMove s x y o).grid a b = 1)) := by
  refine ⟨rfl, rfl, ?_⟩
  have main : ∀ (l : List (Nat × (Int × Int))) (g : Nat → Nat → Nat),
      (l.foldl (fun g' kq => paintCell s.cols s.rows ⌊x / 8⌋ ⌊y / 8⌋ g' (o kq.1) kq.2) g) a b
          = g a b ∨
        (a < s.cols ∧ b < s.rows ∧
          (l.foldl (fun g' kq => paintCell s.cols s.rows ⌊x / 8⌋ ⌊y / 8⌋ g' (o kq.1) kq.2) g) a b
            = 1) := by
    intro l
    induction l with
    | nil => intro g; left; rfl
    | cons hd tl ih =>
      intro g
      rw [List.foldl_cons]
      rcases ih (paintCell s.cols s.rows ⌊x / 8⌋ ⌊y / 8⌋ g (o hd.1) hd.2) with h | h
      · rw [h]
        exact paintCell_frame s.cols s.rows ⌊x / 8⌋ ⌊y / 8⌋ g (o hd.1) hd.2 a b
      · right
        exact h
  exact main nineOffsets.enum s.grid

/-! ## C8: lifecycle -/

/-- C8: under the loop invariant (which holds initially and is preserved by
start, stop, destroy, attach and frame firing), the animation-frame handle is
non-null exactly when a frame callback is pending (the loop is active);
`start` on a running Visual changes nothing; `stop` on a stopped Visual
changes nothing; and `destroy` cancels the pending callback, nulls the
handle and removes both listeners — also when the loop was never started. -/
theorem visual_lifecycle (w : VisWorld) (hInv : LoopInv w) :
    (w.vis.animationId ≠ none ↔ w.sched.pending ≠ []) ∧
    (w.vis.animationId ≠ none → startVis w = w) ∧
    (w.vis.animationId = none → stopVis w = w) ∧
    (destroyVis w).sched.pending = [] ∧
    (destroyVis w).vis.animationId = none ∧
    (destroyVis w).vis.resizeListenerOn = false ∧
    (destroyVis w).vis.mouseListenerOn = false ∧
    LoopInv (startVis w) ∧ LoopInv (stopVis w) ∧ LoopInv (destroyVis w) ∧
    LoopInv (fireFrame w) ∧ LoopInv (attachVis w) := by
  obtain ⟨hQ, hN⟩ := hInv
  cases hA : w.vis.animationId with
  | none =>
    rw [hA] at hQ
    have hT : jsTruthy w.vis.animationId = false := by
      rw [hA]
      rfl
    have hstart : startVis w = loopOnce w := by
      unfold startVis
      simp [hT]
    have hstop : stopVis w = w := by
      unfold stopVis
      simp [hT]
    have hLoop : LoopInv (loopOnce w) := by
      unfold LoopInv loopOnce requestFrame
      simp [hQ]
      omega
    have hdestroy : destroyVis w = { w with vis := { w.vis with
        resizeListenerOn := false, mouseListenerOn := false } } := by
      unfold destroyVis
      rw [hstop]
    refine ⟨by simp [hA, hQ], ?_, fun _ => hstop, ?_, ?_, ?_, ?_, ?_, ?_, ?_, ?_, ?_⟩
    · intro hcontra
      exact absurd rfl hcontra
    · rw [hdestroy]
      exact hQ
    · rw [hdestroy]
      exact hA
    · rw [hdestroy]
    · rw [hdestroy]
    · rw [hstart]
      exact hLoop
    · rw [hstop]
      exact ⟨by rw [hA]; exact hQ, hN⟩
    · rw [hdestroy]
      exact ⟨by simp [hA]; exact hQ, hN⟩
    · unfold fireFrame
      rw [hQ]
      exact ⟨by rw [hA]; exact hQ, hN⟩
    · unfold attachVis
      rw [hstart]
      unfold LoopInv at hLoop ⊢
      simpa using hLoop
  | some id =>
    rw [hA] at hQ
    obtain ⟨hP, hid⟩ := hQ
    have hT : jsTruthy w.vis.animationId = true := by
      rw [hA]
      unfold jsTruthy
      simp
      omega
    have hstart : startVis w = w := by
      unfold startVis
      simp [hT]
    have hsp : (stopVis w).sched.pending = [] := by
      unfold stopVis
      rw [hT]
      simp [cancelFrame, hA, hP]
    have hsn : (stopVis w).sched.nextId = w.sched.nextId := by
      unfold stopVis
      rw [hT]
      simp [cancelFrame]
    have hsa : (stopVis w).vis.animationId = none := by
      unfold stopVis
      rw [hT]
      simp
    have hstopInv : LoopInv (stopVis w) := by
      unfold LoopInv
      rw [hsa, hsp, hsn]
      exact ⟨rfl, hN⟩
    have hd1 : (destroyVis w).sched.pending = [] := by
      unfold destroyVis
      exact hsp
    have hd2 : (destroyVis w).vis.animationId = none := by
      unfold destroyVis
      exact hsa
    have hdInv : LoopInv (destroyVis w) := by
      unfold LoopInv
      rw [hd2, hd1]
      refine ⟨rfl, ?_⟩
      show 1 ≤ (stopVis w).sched.nextId
      rw [hsn]
      exact hN
    have hfire : LoopInv (fireFrame w) := by
      unfold fireFrame
      rw [hP]
      unfold LoopInv loopOnce requestFrame
      simp
      omega
    refine ⟨?_, fun _ => hstart, ?_, hd1, hd2, ?_, ?_, ?_, hstopInv, hdInv, hfire, ?_⟩
    · constructor
      · intro _
        rw [hP]
        simp
      · intro _
        simp
    · intro hcontra
      exact absurd hcontra (by simp)
    · unfold destroyVis
      rfl
    · unfold destroyVis
      rfl
    · rw [hstart]
      exact ⟨by rw [hA]; exact ⟨hP, hid⟩, hN⟩
    · unfold attachVis
      rw [hstart]
      exact ⟨by rw [hA]; exact ⟨hP, hid⟩, hN⟩

/-- Witness for C8 at the freshly constructed world (no handle, nothing
pending, no listeners). -/
theorem visual_lifecycle_witness :
    ((⟨⟨[], 1⟩, ⟨none, false, false⟩⟩ : VisWorld).vis.animationId ≠ none ↔
      (⟨⟨[], 1⟩, ⟨none, false, false⟩⟩ : VisWorld).sched.pending ≠ []) ∧
    ((⟨⟨[], 1⟩, ⟨none, false, false⟩⟩ : VisWorld).vis.animationId ≠ none →
      startVis ⟨⟨[], 1⟩, ⟨none, false, false⟩⟩ = ⟨⟨[], 1⟩, ⟨none, false, false⟩⟩) ∧
    ((⟨⟨[], 1⟩, ⟨none, false, false⟩⟩ : VisWorld).vis.animationId = none →
      stopVis ⟨⟨[], 1⟩, ⟨none, false, false⟩⟩ = ⟨⟨[], 1⟩, ⟨none, false, false⟩⟩) ∧
    (destroyVis ⟨⟨[], 1⟩, ⟨none, false, false⟩⟩).sched.pending = [] ∧
    (destroyVis ⟨⟨[], 1⟩, ⟨none, false, false⟩⟩).vis.animationId = none ∧
    (destroyVis ⟨⟨[], 1⟩, ⟨none, false, false⟩⟩).vis.resizeListenerOn = false ∧
    (destroyVis ⟨⟨[], 1⟩, ⟨none, false, false⟩⟩).vis.mouseListenerOn = false ∧
    LoopInv (startVis ⟨⟨[], 1⟩, ⟨none, false, false⟩⟩) ∧
    LoopInv (stopVis ⟨⟨[], 1⟩, ⟨none, false, false⟩⟩) ∧
    LoopInv (destroyVis ⟨⟨[], 1⟩, ⟨none, false, false⟩⟩) ∧
    LoopInv (fireFrame ⟨⟨[], 1⟩, ⟨none, false, false⟩⟩) ∧
    LoopInv (attachVis ⟨⟨[], 1⟩, ⟨none, false, false⟩⟩) :=
  visual_lifecycle ⟨⟨[], 1⟩, ⟨none, false, false⟩⟩ ⟨rfl, le_refl 1⟩

/-! ## C9: construction -/

/-- C9: construction of a Visual fails with the initialization error exactly
when no 2D context can be obtained from the surface (the obtained context is
null); on failure no instance results, and on success the instance holds the
obtained non-null context. -/
theorem visual_construction (ctxOpt : Option Ctx2D) (color : String) (c : Ctx2D) :
    ((∃ e, mkVisual ctxOpt color = Except.error e) ↔ ctxOpt = none) ∧
    (ctxOpt = some c →
      mkVisual ctxOpt color = Except.ok { ctx := c, color := color }) := by
  constructor
  · constructor
    · intro he
      cases ctxOpt with
      | none => rfl
      | some c' =>
        obtain ⟨e, he⟩ := he
        exact absurd he (by simp [mkVisual])
    · intro hn
      subst hn
      exact ⟨"Could not get canvas context", rfl⟩
  · intro hs
    subst hs
    rfl

/-! ## C2: the per-frame particle transformation -/

/-- C2: for every particle and pointer position, the physics portion of the
per-frame step transforms velocity and position exactly as the composition of
(1) center attraction with force 1000/(distanceToCenter+50) applied at
force·0.5 per component along the angle to center, (2) pointer repulsion by
the unit vector toward the pointer times (200−distance)·0.05 when the
distance is below 200, (3) damping by 0.95 on both components, (4) one
semi-implicit Euler position update — in that order; and when neither reset
condition triggers, the full per-frame step is exactly that transformation. -/
theorem particle_step_order (w h mx my : ℝ) (o : Nat → ℝ) (p : Particle)
    (h1 : ¬ distCenter w h p < 10)
    (h2 : ¬ OutOfRange w h (moveParticle w h mx my p)) :
    moveParticle w h mx my p = eulerStep (dampStep (repelStep mx my (gravityStep w h p)))
    ∧ updateParticle w h mx my o p = moveParticle w h mx my p := by
  constructor
  · unfold moveParticle eulerStep dampStep repelStep gravityStep
    by_cases hm : Real.sqrt ((mx - p.x) * (mx - p.x) + (my - p.y) * (my - p.y)) < 200
    · simp only [if_pos hm]
    · simp only [if_neg hm]
  · unfold updateParticle
    simp only [if_neg h1]
    simp only [if_neg h2]

theorem distCenter_sample : distCenter 100 100 ⟨50, 90, 0, 0, 1⟩ = 40 := by
  unfold distCenter
  norm_num
  rw [show (1600 : ℝ) = 40 ^ 2 by norm_num]
  exact Real.sqrt_sq (by norm_num)

theorem atan2_sample : atan2 (-40 : ℝ) 0 = -(Real.pi / 2) := by
  unfold atan2
  norm_num

theorem moveParticle_sample :
    moveParticle 100 100 (-1000) (-1000) ⟨50, 90, 0, 0, 1⟩ =
      ⟨50, 90 - 95/18, 0, -(95/18), 1⟩ := by
  unfold moveParticle
  have hmd : ¬ (Real.sqrt ((-1000 - 50 : ℝ) * (-1000 - 50) + (-1000 - 90) * (-1000 - 90)) < 200) := by
    push_neg
    rw [show ((-1000 - 50 : ℝ) * (-1000 - 50) + (-1000 - 90) * (-1000 - 90)) = 2290600 by
      norm_num]
    rw [Real.le_sqrt (by norm_num)]
    all_goals norm_num
  dsimp only
  rw [show ((100 : ℝ) / 2 - 50) = 0 by norm_num, show ((100 : ℝ) / 2 - 90) = -40 by norm_num]
  rw [if_neg hmd, if_neg hmd]
  rw [atan2_sample]
  simp only [Real.cos_neg, Real.sin_neg, Real.cos_pi_div_two, Real.sin_pi_div_two]
  rw [show ((0 : ℝ) * 0 + (-40) * (-40)) = 40 ^ 2 by norm_num,
    Real.sqrt_sq (by norm_num : (0:ℝ) ≤ 40)]
  norm_num

/-- Witness for C2 at a concrete particle on a 100×100 surface with the
pointer at its default far-off position. -/
theorem particle_step_order_witness :
    moveParticle 100 100 (-1000) (-1000) ⟨50, 90, 0, 0, 1⟩ =
      eulerStep (dampStep (repelStep (-1000) (-1000) (gravityStep 100 100 ⟨50, 90, 0, 0, 1⟩)))
    ∧ updateParticle 100 100 (-1000) (-1000) (fun _ => 0) ⟨50, 90, 0, 0, 1⟩ =
      moveParticle 100 100 (-1000) (-1000) ⟨50, 90, 0, 0, 1⟩ :=
  particle_step_order 100 100 (-1000) (-1000) (fun _ => 0) ⟨50, 90, 0, 0, 1⟩
    (by rw [distCenter_sample]; norm_num)
    (by
      rw [moveParticle_sample]
      unfold OutOfRange
      push_neg
      norm_num)

/-! ## C3: the reset policy -/

theorem resetParticle_inRange (w h u1 u2 u3 : ℝ) (q : Particle)
    (hw : 0 ≤ w) (hh : 0 ≤ h) (h2 : 0 ≤ u2) (h2' : u2 < 1) :
    ¬ OutOfRange w h (resetParticle w h u1 u2 u3 q) := by
  unfold resetParticle OutOfRange
  push_neg
  dsimp only
  have hmin : 0 ≤ min w h := le_min hw hh
  have hminw : min w h ≤ w := min_le_left w h
  have hminh : min w h ≤ h := min_le_right w h
  have hr0 : 0 ≤ min w h / 2 + u2 * 50 := by nlinarith
  have hr1 : min w h / 2 + u2 * 50 ≤ min w h / 2 + 50 := by nlinarith
  have hcos := abs_le.mp (Real.abs_cos_le_one (u1 * Real.pi * 2))
  have hsin := abs_le.mp (Real.abs_sin_le_one (u1 * Real.pi * 2))
  have hbc1 : Real.cos (u1 * Real.pi * 2) * (min w h / 2 + u2 * 50) ≤ min w h / 2 + u2 * 50 :=
    mul_le_of_le_one_left hr0 hcos.2
  have hbc2 : -(min w h / 2 + u2 * 50) ≤ Real.cos (u1 * Real.pi * 2) * (min w h / 2 + u2 * 50) := by
    nlinarith [hcos.1]
  have hbs1 : Real.sin (u1 * Real.pi * 2) * (min w h / 2 + u2 * 50) ≤ min w h / 2 + u2 * 50 :=
    mul_le_of_le_one_left hr0 hsin.2
  have hbs2 : -(min w h / 2 + u2 * 50) ≤ Real.sin (u1 * Real.pi * 2) * (min w h / 2 + u2 * 50) := by
    nlinarith [hsin.1]
  refine ⟨by nlinarith, by nlinarith, by nlinarith, by nlinarith⟩

/-- C3: a particle whose (pre-move) distance to the surface center is below
10, or whose moved position exceeds 200 units beyond a surface edge, is reset
within this very simulate call by the reset policy: its new position is the
center plus (cos θ, sin θ)·r with θ = u·2π for a draw u in [0,1) — hence θ in
[0,2π) — and r = min(w,h)/2 + U[0,50), and its new velocity is
(−sin θ, cos θ) times a speed in [1,3), tangent to that ring.  (A particle
whose distance drops below 10 only after the move is caught by the next call,
whose pre-move distance is then below 10.) -/
theorem particle_reset_policy (w h mx my : ℝ) (o : Nat → ℝ) (p : Particle)
    (hw : 0 ≤ w) (hh : 0 ≤ h) (ho : ∀ i, 0 ≤ o i ∧ o i < 1)
    (htrig : distCenter w h p < 10 ∨ OutOfRange w h (moveParticle w h mx my p)) :
    updateParticle w h mx my o p = resetParticle w h (o 0) (o 1) (o 2) p ∧
    ∃ θ ∈ Set.Ico (0 : ℝ) (2 * Real.pi),
      ∃ r ∈ Set.Ico (min w h / 2) (min w h / 2 + 50),
        ∃ sp ∈ Set.Ico (1 : ℝ) 3,
          updateParticle w h mx my o p =
            { x := w / 2 + Real.cos θ * r, y := h / 2 + Real.sin θ * r,
              vx := -Real.sin θ * sp, vy := Real.cos θ * sp, size := p.size } := by
  have hEq : updateParticle w h mx my o p = resetParticle w h (o 0) (o 1) (o 2) p := by
    by_cases hd : distCenter w h p < 10
    · unfold updateParticle
      simp only [if_pos hd]
      rw [if_neg (resetParticle_inRange w h (o 0) (o 1) (o 2) _ hw hh (ho 1).1 (ho 1).2)]
      rfl
    · rcases htrig with hd' | hoob
      · exact absurd hd' hd
      · unfold updateParticle
        simp only [if_neg hd]
        rw [if_pos hoob]
        norm_num
        rfl
  refine ⟨hEq, o 0 * Real.pi * 2, ⟨?_, ?_⟩, min w h / 2 + o 1 * 50, ⟨?_, ?_⟩,
    o 2 * 2 + 1, ⟨?_, ?_⟩, ?_⟩
  · nlinarith [(ho 0).1, Real.pi_pos]
  · nlinarith [(ho 0).2, Real.pi_pos]
  · nlinarith [(ho 1).1]
  · nlinarith [(ho 1).2]
  · nlinarith [(ho 2).1]
  · nlinarith [(ho 2).2]
  · rw [hEq]
    rfl

theorem distCenter_center : distCenter 100 100 ⟨50, 50, 0, 0, 1⟩ = 0 := by
  unfold distCenter
  norm_num

/-- Witness for C3: a particle sitting exactly at the center of a 100×100
surface is reset by the very next simulate call. -/
theorem particle_reset_policy_witness :
    updateParticle 100 100 (-1000) (-1000) (fun _ => 0) ⟨50, 50, 0, 0, 1⟩ =
      resetParticle 100 100 0 0 0 ⟨50, 50, 0, 0, 1⟩ ∧
    ∃ θ ∈ Set.Ico (0 : ℝ) (2 * Real.pi),
      ∃ r ∈ Set.Ico (min (100 : ℝ) 100 / 2) (min (100 : ℝ) 100 / 2 + 50),
        ∃ sp ∈ Set.Ico (1 : ℝ) 3,
          updateParticle 100 100 (-1000) (-1000) (fun _ => 0) ⟨50, 50, 0, 0, 1⟩ =
            { x := (100 : ℝ) / 2 + Real.cos θ * r, y := (100 : ℝ) / 2 + Real.sin θ * r,
              vx := -Real.sin θ * sp, vy := Real.cos θ * sp, size := 1 } :=
  particle_reset_policy 100 100 (-1000) (-1000) (fun _ => 0) ⟨50, 50, 0, 0, 1⟩
    (by norm_num) (by norm_num) (fun _ => ⟨le_refl 0, by norm_num⟩)
    (Or.inl (by rw [distCenter_center]; norm_num))

/-! ## C4: bounded velocity -/

theorem unit_div_bound (a d : ℝ) (hd : 0 ≤ d) (h : |a| ≤ d) : |a / d| ≤ 1 := by
  rcases eq_or_lt_of_le hd with h0 | h0
  · have ha : |a| = 0 := le_antisymm (h.trans h0.symm.le) (abs_nonneg a)
    simp [abs_eq_zero.mp ha]
  · rw [abs_div, abs_of_pos h0]
    exact (div_le_one h0).mpr h

theorem damped_component_bound (v g r : ℝ) (hg : |g| ≤ 10) (hr : |r| ≤ 10) :
    |(v + g - r) * 0.95| ≤ 0.95 * |v| + 19 := by
  obtain ⟨hg1, hg2⟩ := abs_le.mp hg
  obtain ⟨hr1, hr2⟩ := abs_le.mp hr
  have h1 := le_abs_self v
  have h2 := neg_abs_le v
  have habs : |v + g - r| ≤ |v| + 20 := abs_le.mpr ⟨by linarith, by linarith⟩
  rw [abs_mul, show |(0.95 : ℝ)| = 0.95 by norm_num]
  nlinarith [abs_nonneg (v + g - r)]

theorem gravity_component_bound (c f : ℝ) (hc : |c| ≤ 1) (hf : 0 ≤ f) (hf20 : f ≤ 20) :
    |c * f * 0.5| ≤ 10 := by
  rw [abs_mul, abs_mul, show |(0.5 : ℝ)| = 0.5 by norm_num, abs_of_nonneg hf]
  nlinarith [abs_nonneg c]

theorem repulse_component_bound (a mdx mdy : ℝ) (ha : a * a ≤ mdx * mdx + mdy * mdy) :
    |if Real.sqrt (mdx * mdx + mdy * mdy) < 200 then
        a / Real.sqrt (mdx * mdx + mdy * mdy) *
          ((200 - Real.sqrt (mdx * mdx + mdy * mdy)) * 0.05)
      else 0| ≤ 10 := by
  set s := Real.sqrt (mdx * mdx + mdy * mdy) with hs
  have hs0 : 0 ≤ s := Real.sqrt_nonneg _
  split_ifs with hlt
  · have hales : |a| ≤ s := by
      rw [hs, ← Real.sqrt_mul_self_eq_abs]
      exact Real.sqrt_le_sqrt ha
    have hdiv : |a / s| ≤ 1 := unit_div_bound a s hs0 hales
    have hfac : |(200 - s) * 0.05| ≤ 10 := by
      rw [abs_mul, show |(0.05 : ℝ)| = 0.05 by norm_num]
      have : |200 - s| ≤ 200 := abs_le.mpr ⟨by linarith, by linarith⟩
      nlinarith [abs_nonneg (200 - s)]
    rw [abs_mul]
    nlinarith [abs_nonneg (a / s), abs_nonneg ((200 - s) * 0.05)]
  · simp

theorem moveParticle_velocity_bound (w h mx my : ℝ) (p : Particle) :
    |(moveParticle w h mx my p).vx| ≤ 0.95 * |p.vx| + 19 ∧
    |(moveParticle w h mx my p).vy| ≤ 0.95 * |p.vy| + 19 := by
  unfold moveParticle
  dsimp only
  have hite : ∀ (c : Prop) (inst : Decidable c) (u R : ℝ),
      (if c then u - R else u) = u - (if c then R else 0) := by
    intro c inst u R
    split_ifs <;> ring
  rw [hite, hite]
  have hdist0 : 0 ≤ Real.sqrt ((w / 2 - p.x) * (w / 2 - p.x) + (h / 2 - p.y) * (h / 2 - p.y)) :=
    Real.sqrt_nonneg _
  have hforce0 : 0 ≤ 1000 /
      (Real.sqrt ((w / 2 - p.x) * (w / 2 - p.x) + (h / 2 - p.y) * (h / 2 - p.y)) + 50) := by
    positivity
  have hforce : 1000 /
      (Real.sqrt ((w / 2 - p.x) * (w / 2 - p.x) + (h / 2 - p.y) * (h / 2 - p.y)) + 50) ≤ 20 := by
    rw [div_le_iff₀ (by linarith)]
    linarith
  constructor
  · exact damped_component_bound p.vx _ _
      (gravity_component_bound _ _ (Real.abs_cos_le_one _) hforce0 hforce)
      (repulse_component_bound (mx - p.x) (mx - p.x) (my - p.y) (by nlinarith))
  · exact damped_component_bound p.vy _ _
      (gravity_component_bound _ _ (Real.abs_sin_le_one _) hforce0 hforce)
      (repulse_component_bound (my - p.y) (mx - p.x) (my - p.y) (by nlinarith))

theorem resetParticle_velocity_bound (w h u1 u2 u3 : ℝ) (q : Particle)
    (h3 : 0 ≤ u3) (h3' : u3 < 1) :
    |(resetParticle w h u1 u2 u3 q).vx| ≤ 3 ∧ |(resetParticle w h u1 u2 u3 q).vy| ≤ 3 := by
  unfold resetParticle
  dsimp only
  have hsp : 0 ≤ u3 * 2 + 1 := by linarith
  constructor
  · rw [show -Real.sin (u1 * Real.pi * 2) * (u3 * 2 + 1)
        = -(Real.sin (u1 * Real.pi * 2) * (u3 * 2 + 1)) by ring, abs_neg, abs_mul,
      abs_of_nonneg hsp]
    nlinarith [Real.abs_sin_le_one (u1 * Real.pi * 2), abs_nonneg (Real.sin (u1 * Real.pi * 2))]
  · rw [abs_mul, abs_of_nonneg hsp]
    nlinarith [Real.abs_cos_le_one (u1 * Real.pi * 2), abs_nonneg (Real.cos (u1 * Real.pi * 2))]

theorem updateParticle_velocity_bound (w h mx my : ℝ) (o : Nat → ℝ) (p : Particle)
    (ho : ∀ i, 0 ≤ o i ∧ o i < 1) (Mx My : ℝ)
    (hMx : 380 ≤ Mx) (hMy : 380 ≤ My)
    (hvx : |p.vx| ≤ Mx) (hvy : |p.vy| ≤ My) :
    |(updateParticle w h mx my o p).vx| ≤ Mx ∧ |(updateParticle w h mx my o p).vy| ≤ My := by
  have hmove := moveParticle_velocity_bound w h mx my p
  have hmoveMx : |(moveParticle w h mx my p).vx| ≤ Mx := by nlinarith [hmove.1]
  have hmoveMy : |(moveParticle w h mx my p).vy| ≤ My := by nlinarith [hmove.2]
  unfold updateParticle
  by_cases h1 : distCenter w h p < 10
  · simp only [if_pos h1]
    split_ifs with h2
    · exact ⟨((resetParticle_velocity_bound w h _ _ _ _ (ho _).1 (ho _).2).1).trans
          (by linarith),
        ((resetParticle_velocity_bound w h _ _ _ _ (ho _).1 (ho _).2).2).trans (by linarith)⟩
    · exact ⟨((resetParticle_velocity_bound w h _ _ _ _ (ho _).1 (ho _).2).1).trans
          (by linarith),
        ((resetParticle_velocity_bound w h _ _ _ _ (ho _).1 (ho _).2).2).trans (by linarith)⟩
  · simp only [if_neg h1]
    split_ifs with h2
    · exact ⟨((resetParticle_velocity_bound w h _ _ _ _ (ho _).1 (ho _).2).1).trans
          (by linarith),
        ((resetParticle_velocity_bound w h _ _ _ _ (ho _).1 (ho _).2).2).trans (by linarith)⟩
    · exact ⟨hmoveMx, hmoveMy⟩

/-- C4: for every particle, pointer position and oracle, the per-component
velocity magnitude stays bounded by max(|v0|, 380) across every number of
iterated simulate steps (in particular across 1000 steps): the gravity term
adds at most 1000/50 · 0.5 = 10 per component, the repulsion at most 10, and
the 0.95 damping makes the bound invariant.  The bound holds for any pointer
position, so in particular for the default far-off pointer. -/
theorem particle_velocity_bounded (w h mx my : ℝ) (os : Nat → Nat → ℝ) (p : Particle)
    (ho : ∀ n i, 0 ≤ os n i ∧ os n i < 1) (n : Nat) :
    |(iterParticle w h mx my os p n).vx| ≤ max |p.vx| 380 ∧
    |(iterParticle w h mx my os p n).vy| ≤ max |p.vy| 380 := by
  induction n with
  | zero => exact ⟨le_max_left _ _, le_max_left _ _⟩
  | succ n ih =>
    exact updateParticle_velocity_bound w h mx my (os n) (iterParticle w h mx my os p n)
      (ho n) (max |p.vx| 380) (max |p.vy| 380) (le_max_right _ _) (le_max_right _ _) ih.1 ih.2

/-- Witness for C4: a concrete particle iterated 1000 steps on a 100×100
surface with the pointer at its default position. -/
theorem particle_velocity_bounded_witness :
    |(iterParticle 100 100 (-1000) (-1000) (fun _ _ => 0) ⟨50, 90, 0, 0, 1⟩ 1000).vx| ≤
      max |(⟨50, 90, 0, 0, 1⟩ : Particle).vx| 380 ∧
    |(iterParticle 100 100 (-1000) (-1000) (fun _ _ => 0) ⟨50, 90, 0, 0, 1⟩ 1000).vy| ≤
      max |(⟨50, 90, 0, 0, 1⟩ : Particle).vy| 380 :=
  particle_velocity_bounded 100 100 (-1000) (-1000) (fun _ _ => 0) ⟨50, 90, 0, 0, 1⟩
    (fun _ _ => ⟨le_refl 0, by norm_num⟩) 1000

/-! ## C5: node-graph connections -/

theorem euclid_eq_dist (p q : Node) :
    euclid p q = Real.sqrt ((p.x - q.x) * (p.x - q.x) + (p.y - q.y) * (p.y - q.y)) := by
  unfold euclid
  rw [pow_two, pow_two]

theorem euclidToMouse_eq_dist (mx my : ℝ) (p : Node) :
    euclidToMouse mx my p =
      Real.sqrt ((mx - p.x) * (mx - p.x) + (my - p.y) * (my - p.y)) := by
  unfold euclidToMouse
  rw [pow_two, pow_two]

theorem pairLine_eq (t : ℝ) (p1 p2 : Node) :
    pairLine t p1 p2 =
      if euclid p1 p2 < t then
        some (DrawCmd.line p1.x p1.y p2.x p2.y (specPairAlpha t (euclid p1 p2)))
      else none := by
  unfold pairLine specPairAlpha
  rw [euclid_eq_dist]

theorem mouseLine_eq (t mx my : ℝ) (p1 : Node) :
    mouseLine t mx my p1 =
      if euclidToMouse mx my p1 < t + 50 then
        some (DrawCmd.line p1.x p1.y mx my ((1 - euclidToMouse mx my p1 / (t + 50)) * 0.8))
      else none := by
  unfold mouseLine
  rw [euclidToMouse_eq_dist]

theorem nodeAt_mem_drop (nodes : List Node) (i j : Nat) (hij : i < j) (hj : j < nodes.length) :
    nodeAt nodes j ∈ nodes.drop (i + 1) := by
  have hlen : j - (i + 1) < (nodes.drop (i + 1)).length := by
    rw [List.length_drop]
    omega
  have hidx : (nodes.drop (i + 1))[j - (i + 1)] = nodes[j] := by
    rw [List.getElem_drop]
    congr 1
    omega
  have hget : nodeAt nodes j = nodes[j] := List.getD_eq_getElem nodes default hj
  rw [hget, ← hidx]
  exact List.getElem_mem hlen

theorem pairLine_mem_drawCmds (t mx my : ℝ) (nodes : List Node) (i j : Nat)
    (hij : i < j) (hj : j < nodes.length) (c : DrawCmd)
    (hc : pairLine t (nodeAt nodes i) (nodeAt nodes j) = some c) :
    c ∈ drawCmds t mx my nodes := by
  unfold drawCmds
  refine List.mem_cons_of_mem _ (List.mem_append_left _ ?_)
  rw [List.mem_flatMap]
  refine ⟨i, List.mem_range.mpr (lt_trans hij hj), List.mem_append_left _ ?_⟩
  rw [List.mem_filterMap]
  exact ⟨nodeAt nodes j, nodeAt_mem_drop nodes i j hij hj, hc⟩

theorem mouseLine_mem_drawCmds (t mx my : ℝ) (nodes : List Node) (i : Nat)
    (hi : i < nodes.length) (c : DrawCmd)
    (hc : mouseLine t mx my (nodeAt nodes i) = some c) :
    c ∈ drawCmds t mx my nodes := by
  unfold drawCmds
  refine List.mem_cons_of_mem _ (List.mem_append_left _ ?_)
  rw [List.mem_flatMap]
  refine ⟨i, List.mem_range.mpr hi, List.mem_append_right _ ?_⟩
  rw [hc]
  simp

theorem drawCmds_lines_before_circles (t mx my : ℝ) (nodes : List Node) :
    ∃ ls cs, drawCmds t mx my nodes = DrawCmd.clear :: (ls ++ cs) ∧
      (∀ c ∈ ls, c.isLine) ∧ (∀ c ∈ cs, c.isCircle) := by
  refine ⟨_, _, rfl, ?_, ?_⟩
  · intro c hc
    rw [List.mem_flatMap] at hc
    obtain ⟨i, _, hc⟩ := hc
    rcases List.mem_append.mp hc with hc | hc
    · rw [List.mem_filterMap] at hc
      obtain ⟨p2, _, hp⟩ := hc
      rw [pairLine_eq] at hp
      split_ifs at hp
      · cases hp
        trivial
    · rw [mouseLine_eq] at hc
      split_ifs at hc
      · simp only [Option.toList_some, List.mem_singleton] at hc
        subst hc
        trivial
      · simp at hc
  · intro c hc
    rw [List.mem_map] at hc
    obtain ⟨p, _, hp⟩ := hc
    subst hp
    trivial

/-- C5: render draws a connecting line between a pair of distinct nodes
exactly when their Euclidean distance is strictly below the connection
threshold, with alpha (1 − distance/threshold)·0.5 — strictly decreasing in
the distance and 0 at the threshold — and, for every node of the population,
a line from the node to the pointer exactly when the distance is strictly
below threshold + 50, with alpha (1 − distance/(threshold+50))·0.8; and every
line command precedes every node circle in the command sequence. -/
theorem network_draw_connections (t mx my : ℝ) (nodes : List Node) (i j k : Nat)
    (d1 d2 : ℝ) (hij : i < j) (hj : j < nodes.length) (hk : k < nodes.length)
    (ht : 0 < t) (hd : d1 < d2) :
    (euclid (nodeAt nodes i) (nodeAt nodes j) < t →
      pairLine t (nodeAt nodes i) (nodeAt nodes j) =
        some (DrawCmd.line (nodeAt nodes i).x (nodeAt nodes i).y
          (nodeAt nodes j).x (nodeAt nodes j).y
          (specPairAlpha t (euclid (nodeAt nodes i) (nodeAt nodes j)))) ∧
      DrawCmd.line (nodeAt nodes i).x (nodeAt nodes i).y
          (nodeAt nodes j).x (nodeAt nodes j).y
          (specPairAlpha t (euclid (nodeAt nodes i) (nodeAt nodes j))) ∈
        drawCmds t mx my nodes) ∧
    (¬ euclid (nodeAt nodes i) (nodeAt nodes j) < t →
      pairLine t (nodeAt nodes i) (nodeAt nodes j) = none) ∧
    (euclidToMouse mx my (nodeAt nodes k) < t + 50 →
      mouseLine t mx my (nodeAt nodes k) =
        some (DrawCmd.line (nodeAt nodes k).x (nodeAt nodes k).y mx my
          ((1 - euclidToMouse mx my (nodeAt nodes k) / (t + 50)) * 0.8)) ∧
      DrawCmd.line (nodeAt nodes k).x (nodeAt nodes k).y mx my
          ((1 - euclidToMouse mx my (nodeAt nodes k) / (t + 50)) * 0.8) ∈
        drawCmds t mx my nodes) ∧
    (¬ euclidToMouse mx my (nodeAt nodes k) < t + 50 →
      mouseLine t mx my (nodeAt nodes k) = none) ∧
    specPairAlpha t d2 < specPairAlpha t d1 ∧
    specPairAlpha t t = 0 ∧
    (∃ ls cs, drawCmds t mx my nodes = DrawCmd.clear :: (ls ++ cs) ∧
      (∀ c ∈ ls, c.isLine) ∧ (∀ c ∈ cs, c.isCircle)) := by
  refine ⟨?_, ?_, ?_, ?_, ?_, ?_, drawCmds_lines_before_circles t mx my nodes⟩
  · intro hlt
    have hp : pairLine t (nodeAt nodes i) (nodeAt nodes j) =
        some (DrawCmd.line (nodeAt nodes i).x (nodeAt nodes i).y
          (nodeAt nodes j).x (nodeAt nodes j).y
          (specPairAlpha t (euclid (nodeAt nodes i) (nodeAt nodes j)))) := by
      rw [pairLine_eq, if_pos hlt]
    exact ⟨hp, pairLine_mem_drawCmds t mx my nodes i j hij hj _ hp⟩
  · intro hge
    rw [pairLine_eq, if_neg hge]
  · intro hlt
    have hm : mouseLine t mx my (nodeAt nodes k) =
        some (DrawCmd.line (nodeAt nodes k).x (nodeAt nodes k).y mx my
          ((1 - euclidToMouse mx my (nodeAt nodes k) / (t + 50)) * 0.8)) := by
      rw [mouseLine_eq, if_pos hlt]
    exact ⟨hm, mouseLine_mem_drawCmds t mx my nodes k hk _ hm⟩
  · intro hge
    rw [mouseLine_eq, if_neg hge]
  · unfold specPairAlpha
    have hdiv : d1 / t < d2 / t := by gcongr
    linarith
  · unfold specPairAlpha
    rw [div_self (ne_of_gt ht)]
    ring

theorem euclid_sample :
    euclid (⟨0, 0, 0, 0, 2⟩ : Node) (⟨0, 100, 0, 0, 2⟩ : Node) = 100 := by
  unfold euclid
  norm_num
  rw [show (10000 : ℝ) = 100 ^ 2 by norm_num]
  exact Real.sqrt_sq (by norm_num)

theorem euclidToMouse_sample :
    euclidToMouse 40 30 (⟨0, 100, 0, 0, 2⟩ : Node) < 200 := by
  unfold euclidToMouse
  norm_num
  rw [show (200 : ℝ) = Real.sqrt (200 ^ 2) by
    rw [Real.sqrt_sq (by norm_num : (0 : ℝ) ≤ 200)]]
  exact Real.sqrt_lt_sqrt (by norm_num) (by norm_num)

/-- Witness for C5: two vertically separated nodes at distance 100 under the
desktop threshold of 150, the pointer at (40, 30); the pointer-line part is
exercised at the last node of the population. -/
theorem network_draw_connections_witness :
    (pairLine 150 (nodeAt [⟨0, 0, 0, 0, 2⟩, ⟨0, 100, 0, 0, 2⟩] 0)
        (nodeAt [⟨0, 0, 0, 0, 2⟩, ⟨0, 100, 0, 0, 2⟩] 1) =
      some (DrawCmd.line (nodeAt [⟨0, 0, 0, 0, 2⟩, ⟨0, 100, 0, 0, 2⟩] 0).x
        (nodeAt [⟨0, 0, 0, 0, 2⟩, ⟨0, 100, 0, 0, 2⟩] 0).y
        (nodeAt [⟨0, 0, 0, 0, 2⟩, ⟨0, 100, 0, 0, 2⟩] 1).x
        (nodeAt [⟨0, 0, 0, 0, 2⟩, ⟨0, 100, 0, 0, 2⟩] 1).y
        (specPairAlpha 150 (euclid (nodeAt [⟨0, 0, 0, 0, 2⟩, ⟨0, 100, 0, 0, 2⟩] 0)
          (nodeAt [⟨0, 0, 0, 0, 2⟩, ⟨0, 100, 0, 0, 2⟩] 1)))) ∧
    DrawCmd.line (nodeAt [⟨0, 0, 0, 0, 2⟩, ⟨0, 100, 0, 0, 2⟩] 0).x
        (nodeAt [⟨0, 0, 0, 0, 2⟩, ⟨0, 100, 0, 0, 2⟩] 0).y
        (nodeAt [⟨0, 0, 0, 0, 2⟩, ⟨0, 100, 0, 0, 2⟩] 1).x
        (nodeAt [⟨0, 0, 0, 0, 2⟩, ⟨0, 100, 0, 0, 2⟩] 1).y
        (specPairAlpha 150 (euclid (nodeAt [⟨0, 0, 0, 0, 2⟩, ⟨0, 100, 0, 0, 2⟩] 0)
          (nodeAt [⟨0, 0, 0, 0, 2⟩, ⟨0, 100, 0, 0, 2⟩] 1))) ∈
      drawCmds 150 40 30 [⟨0, 0, 0, 0, 2⟩, ⟨0, 100, 0, 0, 2⟩]) ∧
    (mouseLine 150 40 30 (nodeAt [⟨0, 0, 0, 0, 2⟩, ⟨0, 100, 0, 0, 2⟩] 1) =
      some (DrawCmd.line (nodeAt [⟨0, 0, 0, 0, 2⟩, ⟨0, 100, 0, 0, 2⟩] 1).x
        (nodeAt [⟨0, 0, 0, 0, 2⟩, ⟨0, 100, 0, 0, 2⟩] 1).y 40 30
        ((1 - euclidToMouse 40 30 (nodeAt [⟨0, 0, 0, 0, 2⟩, ⟨0, 100, 0, 0, 2⟩] 1)
          / (150 + 50)) * 0.8)) ∧
    DrawCmd.line (nodeAt [⟨0, 0, 0, 0, 2⟩, ⟨0, 100, 0, 0, 2⟩] 1).x
        (nodeAt [⟨0, 0, 0, 0, 2⟩, ⟨0, 100, 0, 0, 2⟩] 1).y 40 30
        ((1 - euclidToMouse 40 30 (nodeAt [⟨0, 0, 0, 0, 2⟩, ⟨0, 100, 0, 0, 2⟩] 1)
          / (150 + 50)) * 0.8) ∈
      drawCmds 150 40 30 [⟨0, 0, 0, 0, 2⟩, ⟨0, 100, 0, 0, 2⟩]) :=
  ⟨(network_draw_connections 150 40 30 [⟨0, 0, 0, 0, 2⟩, ⟨0, 100, 0, 0, 2⟩] 0 1 1 40 100
      (by norm_num) (by norm_num) (by norm_num) (by norm_num) (by norm_num)).1
    (by
      show euclid (⟨0, 0, 0, 0, 2⟩ : Node) (⟨0, 100, 0, 0, 2⟩ : Node) < 150
      rw [euclid_sample]
      norm_num),
   (network_draw_connections 150 40 30 [⟨0, 0, 0, 0, 2⟩, ⟨0, 100, 0, 0, 2⟩] 0 1 1 40 100
      (by norm_num) (by norm_num) (by norm_num) (by norm_num) (by norm_num)).2.2.1
    (by
      show euclidToMouse 40 30 (⟨0, 100, 0, 0, 2⟩ : Node) < 150 + 50
      have := euclidToMouse_sample
      linarith)⟩
